import Mathlib

/-!
Shallow embedding of the face_change_api backend-pool scheduler
(app/services/comfyui_tool.py, app/services/load_balancer.py,
app/services/tool_pool.py, app/routers/images.py, app/routers/videos.py,
app/routers/templates.py), together with theorems settling the claims
about the workflow rewriter, the load-based selector, the registry
accounting and the job driver.

Python dicts are modelled as insertion-ordered association lists,
machine integers as Nat/Int, raised exceptions as Except values.
-/

namespace FaceChange

/-- JSON-ish value appearing in a workflow node's `inputs` mapping:
a primitive (string / number / bool / null) or a list of values. -/
inductive JVal where
  | str : String → JVal
  | num : Int → JVal
  | bool : Bool → JVal
  | null : JVal
  | list : List JVal → JVal
deriving Repr

/-- Boolean substring test, `needle in hay` of Python. -/
def strContains (hay needle : String) : Bool :=
  decide (needle.toList <:+: hay.toList)

/-- Boolean suffix test, `s.endswith(suffix)` of Python. -/
def strEndsWith (s suffix : String) : Bool :=
  decide (suffix.toList <:+ s.toList)

/-- Pattern on string-valued entries in `run_workflow_with_image` /
`preload_full_workflow` (comfyui_tool.py lines 104 and 149):
`v.endswith('.png') or v.endswith('.jpg') or 'pasted/' in v or 'input' in v`. -/
def strEntryMatch (s : String) : Bool :=
  strEndsWith s ".png" || strEndsWith s ".jpg" || strContains s "pasted/" || strContains s "input"

/-- Pattern on string elements of list-valued entries (comfyui_tool.py
lines 110 and 155): `item.endswith('.png') or item.endswith('.jpg') or
'pasted/' in item` — note: no `'input'` test here, unlike `strEntryMatch`. -/
def listItemMatch (s : String) : Bool :=
  strEndsWith s ".png" || strEndsWith s ".jpg" || strContains s "pasted/"

/-- Rewrite of one element of a list-valued entry: a string element matching
`listItemMatch` becomes the target filename, everything else is kept. -/
def listElemRewrite (fname : String) : JVal → JVal
  | .str s => if listItemMatch s then .str fname else .str s
  | v => v

/-- Rewrite of one `inputs` entry value, as done in the loop over
`list(inputs.items())` of `run_workflow_with_image` (node-"10" branch) and of
`preload_full_workflow`: a matching string is replaced by the target filename;
a list has its matching string elements replaced (the `changed` flag in the
source only avoids rebinding an identical list, so it is value-irrelevant). -/
def rewriteEntry (fname : String) : JVal → JVal
  | .str s => if strEntryMatch s then .str fname else .str s
  | .list items =>
      let changed := items.any (fun it =>
        match it with
        | .str s => listItemMatch s
        | _ => false)
      if changed then .list (items.map (listElemRewrite fname)) else .list items
  | v => v

/-- A workflow node: `{class_type: ..., inputs: {...}}`. A node missing its
`inputs` key is modelled with an empty association list (the source calls
`node.setdefault('inputs', {})`). -/
structure WfNode where
  class_type : String
  inputs : List (String × JVal)
deriving Repr

/-- A workflow: Python dict from node id to node, insertion-ordered. -/
abbrev Workflow := List (String × WfNode)

/-- Dict lookup on a workflow. -/
def nodeLookup (wf : Workflow) (nid : String) : Option WfNode :=
  (wf.find? (fun p => p.1 == nid)).map (fun p => p.2)

/-- Whether an association list has a given key (`k in d` of Python). -/
def hasKey (inputs : List (String × JVal)) (k : String) : Bool :=
  inputs.any (fun kv => kv.1 == k)

/-- Full rewrite of an `inputs` mapping as done on the node-"10" branch of
`run_workflow_with_image` and on every LoadImage node of
`preload_full_workflow`: every entry is rewritten in place by `rewriteEntry`,
then `image → fname` is appended when no `image` key exists. -/
def rewriteInputsFull (fname : String) (inputs : List (String × JVal)) : List (String × JVal) :=
  let updated := inputs.map (fun kv => (kv.1, rewriteEntry fname kv.2))
  if hasKey updated "image" then updated else updated ++ [("image", JVal.str fname)]

/-- The fallback branch of `run_workflow_with_image` (lines 167-177): both
arms of the source's `if 'image' not in inputs` set `inputs['image'] =
image_filename`, so the effect is: overwrite the `image` entry in place if
present, else append it. No other entry is touched. -/
def setImageKey (fname : String) (inputs : List (String × JVal)) : List (String × JVal) :=
  if hasKey inputs "image" then
    inputs.map (fun kv => if kv.1 == "image" then (kv.1, JVal.str fname) else kv)
  else
    inputs ++ [("image", JVal.str fname)]

/-- In-place update of one node of the workflow dict. -/
def updateNode (wf : Workflow) (nid : String) (f : WfNode → WfNode) : Workflow :=
  wf.map (fun p => if p.1 == nid then (p.1, f p.2) else p)

/-- The test of comfyui_tool.py line 146: `node and node.get('class_type')
== 'LoadImage'` on `wf_copy.get("10")` (an absent node, like an empty falsy
one, fails the test). -/
def node10IsLoadImage (wf : Workflow) : Bool :=
  match nodeLookup wf "10" with
  | some node => node.class_type == "LoadImage"
  | none => false

/-- The workflow-rewriting step of `run_workflow_with_image`
(comfyui_tool.py lines 140-180), acting on the deep copy:
if node id "10" exists with class_type "LoadImage", rewrite all of its
inputs with `rewriteInputsFull` (`replaced` becomes true); otherwise set
only the `image` key of the first node whose class_type is "LoadImage";
otherwise leave the copy unchanged (warning only, no failure). -/
def run_workflow_with_image_rewrite (wf : Workflow) (image_filename : String) : Workflow :=
  if node10IsLoadImage wf then
    updateNode wf "10" (fun n => { n with inputs := rewriteInputsFull image_filename n.inputs })
  else
    match wf.find? (fun p => p.2.class_type == "LoadImage") with
    | some found => updateNode wf found.1 (fun n => { n with inputs := setImageKey image_filename n.inputs })
    | none => wf

/-- The workflow-rewriting step of `preload_full_workflow`
(comfyui_tool.py lines 99-118): every node whose class_type is "LoadImage"
has all of its inputs rewritten with the placeholder name. -/
def preload_full_workflow_rewrite (wf : Workflow) (placeholder : String) : Workflow :=
  wf.map (fun p =>
    if p.2.class_type == "LoadImage" then
      (p.1, { p.2 with inputs := rewriteInputsFull placeholder p.2.inputs })
    else p)

/-! ## Load balancer (app/services/load_balancer.py) -/

/-- Status record of one backend (`ComfyUIServerStatus` dataclass).
`current_tasks` is a Python int, modelled as `Int` so that the clamped
decrement `max(0, x - 1)` is explicit. -/
structure ComfyUIServerStatus where
  server_address : String
  is_available : Bool := true
  queue_remaining : Nat := 0
  queue_pending : Nat := 0
  current_tasks : Int := 0
  last_check_time : Nat := 0
  error_count : Nat := 0
deriving Repr, DecidableEq

/-- `total_load` property: queue tasks plus current processing tasks. -/
def ComfyUIServerStatus.total_load (s : ComfyUIServerStatus) : Int :=
  (s.queue_remaining : Int) + (s.queue_pending : Int) + s.current_tasks

/-- The registry `self.servers`: a Python dict from address to status,
insertion-ordered, with `status.server_address` equal to the key. -/
abbrev Registry := List ComfyUIServerStatus

/-- Dict lookup by address. -/
def regLookup (regs : Registry) (addr : String) : Option ComfyUIServerStatus :=
  regs.find? (fun s => s.server_address == addr)

/-- `addr in self.servers`. -/
def regHas (regs : Registry) (addr : String) : Bool :=
  regs.any (fun s => s.server_address == addr)

/-- Stable ascending sort by `total_load`, modelling
`available_servers.sort(key=lambda x: x[1].total_load)`: Python's sort is
stable, and any stable sort on this key yields the same list as the stable
insertion sort. -/
def sortByLoad (l : List ComfyUIServerStatus) : List ComfyUIServerStatus :=
  List.insertionSort (fun a b => a.total_load ≤ b.total_load) l

instance : IsTotal ComfyUIServerStatus (fun a b => a.total_load ≤ b.total_load) :=
  ⟨fun a b => le_total a.total_load b.total_load⟩

instance : IsTrans ComfyUIServerStatus (fun a b => a.total_load ≤ b.total_load) :=
  ⟨fun _ _ _ hab hbc => le_trans hab hbc⟩

/-- `get_best_server` (load_balancer.py lines 92-107): when the available
sublist is empty, the first registered address (or none on an empty
registry); otherwise the head of the shuffled-then-stably-sorted available
sublist. The source shuffles the filtered list in place before the stable
sort; the shuffle is the only randomness, so it is passed in as the
`shuffled` argument, which a caller must supply as some permutation of the
available sublist. -/
def get_best_server (regs : Registry) (shuffled : List ComfyUIServerStatus) : Option String :=
  let available := regs.filter (fun s => s.is_available)
  if available.isEmpty then
    (regs.head?).map (fun s => s.server_address)
  else
    ((sortByLoad shuffled).head?).map (fun s => s.server_address)

/-- `increment_task`: bump the counter, only when the address is present. -/
def increment_task (regs : Registry) (addr : String) : Registry :=
  if regHas regs addr then
    regs.map (fun s =>
      if s.server_address == addr then { s with current_tasks := s.current_tasks + 1 } else s)
  else regs

/-- `decrement_task`: `max(0, current_tasks - 1)`, only when present. -/
def decrement_task (regs : Registry) (addr : String) : Registry :=
  if regHas regs addr then
    regs.map (fun s =>
      if s.server_address == addr then { s with current_tasks := max 0 (s.current_tasks - 1) } else s)
  else regs

/-- `_mark_server_error` (lines 83-90): increment the error count and mark
the server unavailable once the count reaches `max_error_count`. -/
def mark_server_error (threshold : Nat) (st : ComfyUIServerStatus) : ComfyUIServerStatus :=
  let ec := st.error_count + 1
  { st with
    error_count := ec
    is_available := if threshold ≤ ec then false else st.is_available }

/-- Outcome of one health probe of a backend: HTTP 200 with a parsed body
`{queue_running: [...], queue_pending: [...]}` observed at time `now`, or any
failure (non-200 status, timeout, transport error). The elements of the two
queue arrays are irrelevant, only their lengths are read. -/
inductive ProbeOutcome where
  | success (queue_running queue_pending : List Unit) (now : Nat)
  | failure
deriving Repr, DecidableEq

/-- Effect of `_update_server_status` (lines 56-81) on the probed backend's
record: on 200, store the queue lengths, mark available, stamp the time and
reset the error count; otherwise `_mark_server_error`. -/
def update_server_status (threshold : Nat) (outcome : ProbeOutcome)
    (st : ComfyUIServerStatus) : ComfyUIServerStatus :=
  match outcome with
  | .success qr qp now =>
      { st with
        queue_remaining := qr.length
        queue_pending := qp.length
        is_available := true
        last_check_time := now
        error_count := 0 }
  | .failure => mark_server_error threshold st

/-- Registry-level probe application: updates the record stored under the
probed address, leaving every other entry alone. -/
def apply_probe (threshold : Nat) (addr : String) (outcome : ProbeOutcome)
    (regs : Registry) : Registry :=
  regs.map (fun s => if s.server_address == addr then update_server_status threshold outcome s else s)

/-- `add_server` (lines 136-141): append a fresh default record unless the
address is already registered. -/
def add_server (regs : Registry) (addr : String) : Registry :=
  if regHas regs addr then regs else regs ++ [{ server_address := addr }]

/-- `remove_server` (lines 143-148): delete the entry if present. -/
def remove_server (regs : Registry) (addr : String) : Registry :=
  regs.filter (fun s => !(s.server_address == addr))

/-- `max_error_count` default from app/config.py line 37. -/
def settings_max_error_count : Nat := 3

/-- One registry operation, for stating invariants over arbitrary
interleavings of the mutators. -/
inductive RegistryOp where
  | add (addr : String)
  | remove (addr : String)
  | probe (addr : String) (outcome : ProbeOutcome)
  | inc (addr : String)
  | dec (addr : String)
deriving Repr

/-- Apply one registry operation. -/
def applyOp (threshold : Nat) (regs : Registry) : RegistryOp → Registry
  | .add addr => add_server regs addr
  | .remove addr => remove_server regs addr
  | .probe addr outcome => apply_probe threshold addr outcome regs
  | .inc addr => increment_task regs addr
  | .dec addr => decrement_task regs addr

/-- Apply a sequence of registry operations from left to right. -/
def applyOps (threshold : Nat) (regs : Registry) (ops : List RegistryOp) : Registry :=
  ops.foldl (applyOp threshold) regs

/-! ## Request dispatch accounting (app/routers/images.py, videos.py)

Raised Python exceptions are modelled as `Except.error`; the accounting
side effects on the load balancer are collected in an event list. -/

/-- One task-accounting call on the load balancer. -/
inductive AcctEvent where
  | inc (addr : String)
  | dec (addr : String)
deriving Repr, DecidableEq

/-- What the handler sends back: a normal JSON response or an HTTP error. -/
inductive HandlerResult where
  | ok
  | httpError (code : Nat)
deriving Repr, DecidableEq

/-- Abstract outcomes of the effectful stages of `process_image`'s inner
try-block (lines 78-140): whether a workflow is loaded on the chosen tool,
whether `run_workflow_with_image` returned or raised, whether the returned
history held a fetchable artifact, and whether the post-processing
(artifact fetch, decode, save, encode) succeeded or raised. -/
structure ImageBodyEnv where
  workflowLoaded : Bool
  runResult : Except String Unit
  artifactFound : Bool
  postProcess : Except String Unit
deriving Repr

/-- The inner try-block of `process_image` (lines 78-140): raises when no
workflow is loaded, propagates a raise from the workflow run or the
post-processing, and otherwise returns a success response (with or without
an artifact). It performs no accounting call itself. -/
def imageRequestBody (env : ImageBodyEnv) : Except String HandlerResult :=
  if env.workflowLoaded = false then Except.error "Workflow not loaded"
  else
    match env.runResult with
    | Except.error e => Except.error e
    | Except.ok _ =>
        if env.artifactFound = false then Except.ok HandlerResult.ok
        else
          match env.postProcess with
          | Except.error e => Except.error e
          | Except.ok _ => Except.ok HandlerResult.ok

/-- `process_image` from the dispatch point on (lines 70-148).
`bestServer` is what `tool_pool.get_tool_for_request()` resolved: `none`
models its RuntimeError when the selector returns nothing, caught by the
outer `except` with no accounting performed. Otherwise the handler runs
`increment_task(addr)`, the inner try-block, and — through the `finally:` —
`decrement_task(addr)` on the return path and on the raise path alike; a
raise is then converted by the outer `except` into an HTTP 500. -/
def process_image_dispatch (bestServer : Option String) (env : ImageBodyEnv) :
    HandlerResult × List AcctEvent :=
  match bestServer with
  | none => (HandlerResult.httpError 500, [])
  | some addr =>
      match imageRequestBody env with
      | Except.ok r => (r, [AcctEvent.inc addr] ++ [AcctEvent.dec addr])
      | Except.error _ => (HandlerResult.httpError 500, [AcctEvent.inc addr] ++ [AcctEvent.dec addr])

/-- Abstract outcomes of the stages of `process_video` (routers/videos.py):
like `ImageBodyEnv`, plus the upload-extension check that runs before any
dispatch. -/
structure VideoBodyEnv where
  filenameSupported : Bool
  workflowLoaded : Bool
  runResult : Except String Unit
  artifactFound : Bool
  postProcess : Except String Unit
deriving Repr

/-- The inner try-block of `process_video` (lines 80-137). -/
def videoRequestBody (env : VideoBodyEnv) : Except String HandlerResult :=
  if env.workflowLoaded = false then Except.error "Workflow not loaded"
  else
    match env.runResult with
    | Except.error e => Except.error e
    | Except.ok _ =>
        if env.artifactFound = false then Except.ok HandlerResult.ok
        else
          match env.postProcess with
          | Except.error e => Except.error e
          | Except.ok _ => Except.ok HandlerResult.ok

/-- `process_video` (lines 30-145): the extension check raises a 400 before
any dispatch; afterwards the structure matches `process_image_dispatch`,
with `decrement_task` in the `finally:` of lines 139-141. -/
def process_video_dispatch (bestServer : Option String) (env : VideoBodyEnv) :
    HandlerResult × List AcctEvent :=
  if env.filenameSupported = false then (HandlerResult.httpError 400, [])
  else
    match bestServer with
    | none => (HandlerResult.httpError 500, [])
    | some addr =>
        match videoRequestBody env with
        | Except.ok r => (r, [AcctEvent.inc addr] ++ [AcctEvent.dec addr])
        | Except.error _ => (HandlerResult.httpError 500, [AcctEvent.inc addr] ++ [AcctEvent.dec addr])

/-! ## WebSocket watch loop (comfyui_tool.py `_wait_for_prompt_exec`) -/

/-- One parsed text frame `{type, data}`: `mtype` is `msg.get('type')`,
the `data` fields are `msg.get('data', {}).get(...)` (a missing `data` key
yields all-`none`). -/
structure WsMsg where
  mtype : Option String
  dataNode : Option String
  dataPromptId : Option String
  dataValue : Option Int
  dataMax : Option Int
deriving Repr, DecidableEq

/-- A WebSocket frame: a text frame with its parsed JSON object, or a
binary frame, which the loop's `isinstance(out, str)` test skips. -/
inductive WsFrame where
  | binary
  | text (msg : WsMsg)
deriving Repr, DecidableEq

/-- The completion signal: a text frame of type `executing` whose data has
`node == null` and `prompt_id` equal to the awaited job id. -/
def isCompletionSignal (prompt_id : String) (f : WsFrame) : Bool :=
  match f with
  | WsFrame.binary => false
  | WsFrame.text m =>
      m.mtype == some "executing" && m.dataNode == none && m.dataPromptId == some prompt_id

/-- The receive loop of `_wait_for_prompt_exec` (lines 67-80), run over the
frames delivered before the deadline (the `while time.time() < deadline`
guard): binary frames are skipped, `progress` frames are logged and the
loop continues, an `executing` frame with `node == null` and a matching
`prompt_id` returns true, anything else continues; an exhausted deadline
returns false. -/
def wait_for_prompt_exec (prompt_id : String) : List WsFrame → Bool
  | [] => false
  | f :: rest =>
      match f with
      | WsFrame.binary => wait_for_prompt_exec prompt_id rest
      | WsFrame.text m =>
          if m.mtype == some "progress" then wait_for_prompt_exec prompt_id rest
          else if m.mtype == some "executing" then
            if m.dataNode == none && m.dataPromptId == some prompt_id then true
            else wait_for_prompt_exec prompt_id rest
          else wait_for_prompt_exec prompt_id rest

/-- Result of one `_wait_for_prompt_exec` call together with the state of
the WebSocket on exit; the `try/finally` of lines 66-85 closes the socket
on the return path and on the raise path alike. -/
structure WaitResult where
  value : Bool
  wsClosed : Bool
deriving Repr, DecidableEq

/-- `_wait_for_prompt_exec` (lines 62-85): open the socket, run the receive
loop, close the socket in the `finally:`. -/
def wait_for_prompt_exec_run (prompt_id : String) (frames : List WsFrame) : WaitResult :=
  { value := wait_for_prompt_exec prompt_id frames
    wsClosed := true }

/-! ## Template loading and preload fan-out
(app/routers/templates.py `load_template`, app/services/tool_pool.py
`preload_all_servers`) -/

/-- `preload_all_servers` (tool_pool.py lines 53-70): one
`preload_full_workflow` per tool-pool entry, results keyed by address in
submission order. The per-backend network outcome is abstracted as the
oracle `outcome`. -/
def preload_all_servers (tools : List String) (outcome : String → Bool × String) :
    List (String × (Bool × String)) :=
  tools.map (fun addr => (addr, outcome addr))

/-- Response of `load_template`: an HTTPException status or a success
response carrying the per-backend preload results (empty when no preload
was run). -/
inductive LoadTemplateOutcome where
  | httpError (code : Nat)
  | success (results : List (String × (Bool × String)))
deriving Repr, DecidableEq

/-- `load_template` (templates.py lines 41-80). Returns the response
together with the list of backends on which a preload was invoked.
404 when the template file is missing, 500 when the parsed workflow is
falsy; in image mode the workflow is preloaded on every tool-pool backend
and a 500 is raised when zero backends succeed; any other mode skips the
preload entirely. -/
def load_template (mode : String) (templateExists workflowEmpty : Bool)
    (tools : List String) (outcome : String → Bool × String) :
    LoadTemplateOutcome × List String :=
  if templateExists = false then (LoadTemplateOutcome.httpError 404, [])
  else if workflowEmpty then (LoadTemplateOutcome.httpError 500, [])
  else if mode == "image" then
    let results := preload_all_servers tools outcome
    let success_count := (results.filter (fun r => r.2.1 == true)).length
    if success_count == 0 then (LoadTemplateOutcome.httpError 500, tools)
    else (LoadTemplateOutcome.success results, tools)
  else (LoadTemplateOutcome.success [], [])

/-! ## Helper lemmas about workflow dictionaries -/

theorem nodeLookup_updateNode_self (wf : Workflow) (nid : String) (f : WfNode → WfNode) :
    nodeLookup (updateNode wf nid f) nid = (nodeLookup wf nid).map f := by
  induction wf with
  | nil => rfl
  | cons p rest ih =>
      by_cases h : p.1 = nid
      · simp [nodeLookup, updateNode, List.find?_cons, h]
      · have hb : (p.1 == nid) = false := by simpa using h
        simp only [updateNode, List.map_cons, hb, if_neg, Bool.false_eq_true, not_false_iff]
        simp only [nodeLookup, List.find?_cons, hb]
        simpa [nodeLookup, updateNode] using ih

theorem nodeLookup_updateNode_other (wf : Workflow) (nid nid2 : String) (f : WfNode → WfNode)
    (h : nid2 ≠ nid) :
    nodeLookup (updateNode wf nid f) nid2 = nodeLookup wf nid2 := by
  induction wf with
  | nil => rfl
  | cons p rest ih =>
      by_cases hp : p.1 = nid
      · have hb : (p.1 == nid) = true := by simpa using hp
        have hb2 : (p.1 == nid2) = false := by
          simp only [beq_eq_false_iff_ne, ne_eq]
          intro hcon
          exact h (by rw [← hcon, hp])
        simp only [updateNode, List.map_cons, hb, if_true]
        simp only [nodeLookup, List.find?_cons, hb2]
        simpa [nodeLookup, updateNode] using ih
      · have hb : (p.1 == nid) = false := by simpa using hp
        simp only [updateNode, List.map_cons, hb, Bool.false_eq_true, if_false]
        by_cases hq : p.1 = nid2
        · have hb2 : (p.1 == nid2) = true := by simpa using hq
          simp [nodeLookup, List.find?_cons, hb2]
        · have hb2 : (p.1 == nid2) = false := by simpa using hq
          simp only [nodeLookup, List.find?_cons, hb2]
          simpa [nodeLookup, updateNode] using ih

theorem hasKey_map_fst (inputs : List (String × JVal)) (g : String × JVal → JVal) (k : String) :
    hasKey (inputs.map (fun kv => (kv.1, g kv))) k = hasKey inputs k := by
  simp only [hasKey, List.any_map]
  rfl

theorem mem_rewriteInputsFull (fname : String) (inputs : List (String × JVal))
    (k : String) (v : JVal) (h : (k, v) ∈ inputs) :
    (k, rewriteEntry fname v) ∈ rewriteInputsFull fname inputs := by
  have hm : (k, rewriteEntry fname v) ∈ inputs.map (fun kv => (kv.1, rewriteEntry fname kv.2)) :=
    List.mem_map_of_mem _ h
  unfold rewriteInputsFull
  by_cases hk : hasKey (inputs.map (fun kv => (kv.1, rewriteEntry fname kv.2))) "image"
  · simpa [hk] using hm
  · simp only [hk, Bool.false_eq_true, if_false]
    exact List.mem_append_left _ hm

theorem hasKey_rewriteInputsFull (fname : String) (inputs : List (String × JVal)) :
    hasKey (rewriteInputsFull fname inputs) "image" = true := by
  unfold rewriteInputsFull
  by_cases hk : hasKey (inputs.map (fun kv => (kv.1, rewriteEntry fname kv.2))) "image"
  · simp only [hk, if_true]
  · simp only [hk, Bool.false_eq_true, if_false]
    simp [hasKey, List.any_append]

theorem image_mem_rewriteInputsFull (fname : String) (inputs : List (String × JVal))
    (h : hasKey inputs "image" = false) :
    ("image", JVal.str fname) ∈ rewriteInputsFull fname inputs := by
  unfold rewriteInputsFull
  have h2 : hasKey (inputs.map (fun kv => (kv.1, rewriteEntry fname kv.2))) "image" = false := by
    rw [hasKey_map_fst]; exact h
  simp only [h2, Bool.false_eq_true, if_false]
  exact List.mem_append_right _ (List.mem_singleton.mpr rfl)

theorem image_mem_setImageKey (fname : String) (inputs : List (String × JVal)) :
    ("image", JVal.str fname) ∈ setImageKey fname inputs := by
  unfold setImageKey
  by_cases hk : hasKey inputs "image"
  · simp only [hk, if_true]
    obtain ⟨kv, hm, he⟩ := List.any_eq_true.mp hk
    have hkeq : kv.1 = "image" := by simpa using he
    refine List.mem_map.mpr ⟨kv, hm, ?_⟩
    simp [he, hkeq]
  · simp [hk]

theorem mem_setImageKey_of_ne (fname : String) (inputs : List (String × JVal))
    (k : String) (v : JVal) (hk : k ≠ "image") :
    ((k, v) ∈ setImageKey fname inputs ↔ (k, v) ∈ inputs) := by
  unfold setImageKey
  by_cases h : hasKey inputs "image"
  · simp only [h, if_true]
    constructor
    · intro hm
      obtain ⟨kv, hkv, heq⟩ := List.mem_map.mp hm
      by_cases hkk : (kv.1 == "image") = true
      · rw [if_pos hkk] at heq
        have h1 : kv.1 = "image" := by simpa using hkk
        have h2 : kv.1 = k := congrArg Prod.fst heq
        have h3 : k = "image" := by rw [← h2]; exact h1
        exact absurd h3 hk
      · rw [if_neg (by simpa using hkk)] at heq
        rwa [heq] at hkv
    · intro hm
      refine List.mem_map.mpr ⟨(k, v), hm, ?_⟩
      have hb : (k == "image") = false := by simpa using hk
      simp [hb]
  · simp only [h, Bool.false_eq_true, if_false, List.mem_append, List.mem_singleton]
    constructor
    · intro hm
      rcases hm with hm | hm
      · exact hm
      · exact absurd (congrArg Prod.fst hm) hk
    · intro hm
      exact Or.inl hm

theorem map_listElemRewrite_of_not_any (fname : String) (items : List JVal)
    (h : (items.any (fun it =>
      match it with
      | JVal.str s => listItemMatch s
      | _ => false)) = false) :
    items.map (listElemRewrite fname) = items := by
  induction items with
  | nil => rfl
  | cons it rest ih =>
      simp only [List.any_cons, Bool.or_eq_false_iff] at h
      obtain ⟨h1, h2⟩ := h
      simp only [List.map_cons, ih h2, List.cons.injEq, and_true]
      cases it with
      | str s =>
          have h1s : listItemMatch s = false := by simpa using h1
          simp [listElemRewrite, h1s]
      | num n => rfl
      | bool b => rfl
      | null => rfl
      | list l => rfl

theorem rewriteEntry_list (fname : String) (items : List JVal) :
    rewriteEntry fname (JVal.list items) = JVal.list (items.map (listElemRewrite fname)) := by
  unfold rewriteEntry
  by_cases h : (items.any (fun it =>
      match it with
      | JVal.str s => listItemMatch s
      | _ => false)) = true
  · simp only [h, if_true]
  · have hf : (items.any (fun it =>
      match it with
      | JVal.str s => listItemMatch s
      | _ => false)) = false := by simpa using h
    simp only [hf, Bool.false_eq_true, if_false, map_listElemRewrite_of_not_any fname items hf]

theorem find?_append_first {α : Type} (p : α → Bool) (l1 l2 : List α) (x : α)
    (h1 : ∀ y ∈ l1, p y = false) (hx : p x = true) :
    (l1 ++ x :: l2).find? p = some x := by
  induction l1 with
  | nil => simp [List.find?_cons, hx]
  | cons a rest ih =>
      have ha : p a = false := h1 a (List.mem_cons_self a rest)
      simp only [List.cons_append, List.find?_cons, ha]
      exact ih (fun y hy => h1 y (List.mem_cons_of_mem a hy))

theorem nodeLookup_of_decomp (wf : Workflow) (l1 l2 : List (String × WfNode))
    (nid0 : String) (n0 : WfNode)
    (hwf : wf = l1 ++ (nid0, n0) :: l2) (hnd : (wf.map Prod.fst).Nodup) :
    nodeLookup wf nid0 = some n0 := by
  have hnodupkeys : ((l1.map Prod.fst) ++ nid0 :: (l2.map Prod.fst)).Nodup := by
    simpa [hwf] using hnd
  have hmid := List.nodup_middle.mp hnodupkeys
  have hnotmem : nid0 ∉ (l1.map Prod.fst ++ l2.map Prod.fst) := (List.nodup_cons.mp hmid).1
  have hnotin : ∀ y ∈ l1, ((fun p => p.1 == nid0) y) = false := by
    intro y hy
    have hyk : y.1 ∈ l1.map Prod.fst := List.mem_map_of_mem _ hy
    by_contra hcon
    have hbeq : (y.1 == nid0) = true := by
      cases hb2 : (y.1 == nid0) with
      | false => exact absurd hb2 hcon
      | true => rfl
    have hyeq : y.1 = nid0 := by simpa using hbeq
    exact hnotmem (List.mem_append_left _ (hyeq ▸ hyk))
  unfold nodeLookup
  rw [hwf, find?_append_first _ l1 l2 (nid0, n0) hnotin (by simp)]
  rfl

theorem sortByLoad_perm (l : List ComfyUIServerStatus) : (sortByLoad l).Perm l :=
  List.perm_insertionSort _ l

theorem sortByLoad_sorted (l : List ComfyUIServerStatus) :
    (sortByLoad l).Sorted (fun a b => a.total_load ≤ b.total_load) :=
  List.sorted_insertionSort _ l

theorem sortByLoad_head_min (l : List ComfyUIServerStatus) (h : ComfyUIServerStatus)
    (t : List ComfyUIServerStatus) (heq : sortByLoad l = h :: t) :
    ∀ y ∈ l, h.total_load ≤ y.total_load := by
  intro y hy
  have hys : y ∈ sortByLoad l := (sortByLoad_perm l).symm.subset hy
  rw [heq] at hys
  rcases List.mem_cons.mp hys with hEq | hmem
  · rw [hEq]
  · have hs := sortByLoad_sorted l
    rw [heq] at hs
    exact List.rel_of_sorted_cons hs y hmem

theorem regLookup_map_at (regs : Registry) (b : String)
    (f : ComfyUIServerStatus → ComfyUIServerStatus)
    (hf : ∀ s, (f s).server_address = s.server_address) :
    regLookup (regs.map (fun s => if s.server_address == b then f s else s)) b
      = (regLookup regs b).map f := by
  induction regs with
  | nil => rfl
  | cons s rest ih =>
      by_cases h : s.server_address = b
      · have hb : (s.server_address == b) = true := by simpa using h
        have hb2 : ((f s).server_address == b) = true := by
          rw [hf s]
          exact hb
        simp only [List.map_cons, hb, if_true]
        simp only [regLookup, List.find?_cons, hb2, hb]
        rfl
      · have hb : (s.server_address == b) = false := by simpa using h
        simp only [List.map_cons, hb, Bool.false_eq_true, if_false]
        simp only [regLookup, List.find?_cons, hb]
        simpa [regLookup] using ih

theorem regHas_of_regLookup (regs : Registry) (b : String) (st : ComfyUIServerStatus)
    (h : regLookup regs b = some st) : regHas regs b = true := by
  unfold regLookup at h
  unfold regHas
  have hp := List.find?_some h
  exact List.any_eq_true.mpr ⟨st, List.mem_of_find?_eq_some h, hp⟩

theorem update_server_status_current_tasks (threshold : Nat) (outcome : ProbeOutcome)
    (st : ComfyUIServerStatus) :
    (update_server_status threshold outcome st).current_tasks = st.current_tasks := by
  cases outcome with
  | success qr qp now => rfl
  | failure => rfl

theorem update_server_status_addr (threshold : Nat) (outcome : ProbeOutcome)
    (st : ComfyUIServerStatus) :
    (update_server_status threshold outcome st).server_address = st.server_address := by
  cases outcome with
  | success qr qp now => rfl
  | failure => rfl

theorem applyOp_preserves_nonneg (threshold : Nat) (regs : Registry) (op : RegistryOp)
    (h : ∀ s ∈ regs, 0 ≤ s.current_tasks) :
    ∀ s ∈ applyOp threshold regs op, 0 ≤ s.current_tasks := by
  intro s hs
  cases op with
  | add addr =>
      simp only [applyOp, add_server] at hs
      by_cases hhas : regHas regs addr = true
      · rw [if_pos hhas] at hs
        exact h s hs
      · rw [if_neg hhas] at hs
        rcases List.mem_append.mp hs with hm | hm
        · exact h s hm
        · rw [List.mem_singleton.mp hm]
  | remove addr =>
      simp only [applyOp, remove_server] at hs
      exact h s (List.mem_of_mem_filter hs)
  | probe addr outcome =>
      simp only [applyOp, apply_probe] at hs
      obtain ⟨s0, hm0, heq⟩ := List.mem_map.mp hs
      by_cases hb : (s0.server_address == addr) = true
      · rw [if_pos hb] at heq
        rw [← heq, update_server_status_current_tasks]
        exact h s0 hm0
      · rw [if_neg hb] at heq
        rw [← heq]
        exact h s0 hm0
  | inc addr =>
      simp only [applyOp, increment_task] at hs
      by_cases hhas : regHas regs addr = true
      · rw [if_pos hhas] at hs
        obtain ⟨s0, hm0, heq⟩ := List.mem_map.mp hs
        by_cases hb : (s0.server_address == addr) = true
        · rw [if_pos hb] at heq
          rw [← heq]
          have hges := h s0 hm0
          show 0 ≤ s0.current_tasks + 1
          omega
        · rw [if_neg hb] at heq
          rw [← heq]
          exact h s0 hm0
      · rw [if_neg hhas] at hs
        exact h s hs
  | dec addr =>
      simp only [applyOp, decrement_task] at hs
      by_cases hhas : regHas regs addr = true
      · rw [if_pos hhas] at hs
        obtain ⟨s0, hm0, heq⟩ := List.mem_map.mp hs
        by_cases hb : (s0.server_address == addr) = true
        · rw [if_pos hb] at heq
          rw [← heq]
          exact le_max_left 0 _
        · rw [if_neg hb] at heq
          rw [← heq]
          exact h s0 hm0
      · rw [if_neg hhas] at hs
        exact h s hs

theorem applyOps_preserves_nonneg (threshold : Nat) (ops : List RegistryOp) :
    ∀ regs : Registry, (∀ s ∈ regs, 0 ≤ s.current_tasks) →
      ∀ s ∈ applyOps threshold regs ops, 0 ≤ s.current_tasks := by
  induction ops with
  | nil =>
      intro regs h
      simpa [applyOps] using h
  | cons op rest ih =>
      intro regs h
      have hstep := ih (applyOp threshold regs op) (applyOp_preserves_nonneg threshold regs op h)
      simpa [applyOps] using hstep

theorem wait_eq_any (pid : String) (frames : List WsFrame) :
    wait_for_prompt_exec pid frames = frames.any (isCompletionSignal pid) := by
  induction frames with
  | nil => rfl
  | cons f rest ih =>
      cases f with
      | binary =>
          simpa [wait_for_prompt_exec, isCompletionSignal, List.any_cons] using ih
      | text m =>
          simp only [List.any_cons]
          by_cases hp : (m.mtype == some "progress") = true
          · have hpe : m.mtype = some "progress" := by simpa using hp
            have hne : (m.mtype == some "executing") = false := by simp [hpe]
            simp [wait_for_prompt_exec, isCompletionSignal, hp, hne, ih]
          · by_cases he : (m.mtype == some "executing") = true
            · by_cases hc : (m.dataNode == none && m.dataPromptId == some pid) = true
              · simp [wait_for_prompt_exec, isCompletionSignal, hp, he, hc]
              · simp [wait_for_prompt_exec, isCompletionSignal, hp, he, hc, ih]
            · simp [wait_for_prompt_exec, isCompletionSignal, hp, he, ih]

/-! ## Claim theorems -/

/-- C1 (counterexample): the claim says the rewrite applied to the target
node selected by the first-LoadImage fallback replaces every string entry
matching the filename pattern with the target filename. On the workflow
whose only node is "5" (a LoadImage, so the fallback selects it) with the
single entry `foo = "x.png"` — a string matching the pattern — the code
only sets the `image` key and leaves `foo` at `"x.png"` unreplaced. -/
theorem C1_fallback_rewrite_counterexample :
    strEntryMatch "x.png" = true ∧
    run_workflow_with_image_rewrite
        [("5", { class_type := "LoadImage", inputs := [("foo", JVal.str "x.png")] })] "new.png"
      = [("5", { class_type := "LoadImage",
                 inputs := [("foo", JVal.str "x.png"), ("image", JVal.str "new.png")] })] := by
  exact ⟨by decide, by rfl⟩

/-- C1 (amended): on the preferred node-"10" path the rewrite does replace
every string entry matching the pattern (`.png`/`.jpg` suffix, `pasted/` or
`input` substring), rewrites every list entry elementwise under the
narrower list-element pattern (no `input` substring test), and ensures an
`image` key (added with the target filename when absent). On the
first-LoadImage fallback path the rewrite only sets the `image` key to the
target filename; every other entry is left exactly as it was. -/
theorem C1_image_rewrite_amended (wf : Workflow) (fname : String)
    (hnd : (wf.map Prod.fst).Nodup) :
    (∀ n : WfNode, nodeLookup wf "10" = some n → n.class_type = "LoadImage" →
      ∃ n2 : WfNode,
        nodeLookup (run_workflow_with_image_rewrite wf fname) "10" = some n2 ∧
        (∀ k s, (k, JVal.str s) ∈ n.inputs → strEntryMatch s = true →
          (k, JVal.str fname) ∈ n2.inputs) ∧
        (∀ k items, (k, JVal.list items) ∈ n.inputs →
          (k, JVal.list (items.map (listElemRewrite fname))) ∈ n2.inputs) ∧
        hasKey n2.inputs "image" = true ∧
        (hasKey n.inputs "image" = false → ("image", JVal.str fname) ∈ n2.inputs)) ∧
    (∀ l1 l2 nid0 n0, wf = l1 ++ (nid0, n0) :: l2 →
      node10IsLoadImage wf = false →
      (∀ p ∈ l1, p.2.class_type ≠ "LoadImage") →
      n0.class_type = "LoadImage" →
      ∃ n2 : WfNode,
        nodeLookup (run_workflow_with_image_rewrite wf fname) nid0 = some n2 ∧
        ("image", JVal.str fname) ∈ n2.inputs ∧
        (∀ k v, k ≠ "image" → ((k, v) ∈ n2.inputs ↔ (k, v) ∈ n0.inputs))) := by
  constructor
  · intro n h10 hct
    have hb : node10IsLoadImage wf = true := by
      simp [node10IsLoadImage, h10, hct]
    refine ⟨{ n with inputs := rewriteInputsFull fname n.inputs }, ?_, ?_, ?_, ?_, ?_⟩
    · unfold run_workflow_with_image_rewrite
      rw [hb]
      simp only [if_true]
      rw [nodeLookup_updateNode_self, h10]
      rfl
    · intro k s hm hmatch
      have hmem := mem_rewriteInputsFull fname n.inputs k (JVal.str s) hm
      simpa [rewriteEntry, hmatch] using hmem
    · intro k items hm
      have hmem := mem_rewriteInputsFull fname n.inputs k (JVal.list items) hm
      rwa [rewriteEntry_list] at hmem
    · exact hasKey_rewriteInputsFull fname n.inputs
    · intro himg
      exact image_mem_rewriteInputsFull fname n.inputs himg
  · intro l1 l2 nid0 n0 hwf h10 hl1 hn0
    have hfind : wf.find? (fun p => p.2.class_type == "LoadImage") = some (nid0, n0) := by
      rw [hwf]
      exact find?_append_first _ l1 l2 (nid0, n0)
        (fun y hy => by simpa using hl1 y hy) (by simpa using hn0)
    have hres : run_workflow_with_image_rewrite wf fname
        = updateNode wf nid0 (fun n => { n with inputs := setImageKey fname n.inputs }) := by
      unfold run_workflow_with_image_rewrite
      rw [h10]
      simp only [Bool.false_eq_true, if_false, hfind]
    have hkey : nodeLookup wf nid0 = some n0 := nodeLookup_of_decomp wf l1 l2 nid0 n0 hwf hnd
    refine ⟨{ n0 with inputs := setImageKey fname n0.inputs }, ?_, ?_, ?_⟩
    · rw [hres, nodeLookup_updateNode_self, hkey]
      rfl
    · exact image_mem_setImageKey fname n0.inputs
    · intro k v hkne
      exact mem_setImageKey_of_ne fname n0.inputs k v hkne

/-- Witness for C1 (amended): both branches of the amended theorem applied
at concrete workflows — node "10" with a matching entry `foo = "x.png"`
becomes `foo = "new.png"`, and a fallback node "5" gets its `image` key
while keeping `foo = "x.png"`. -/
theorem C1_image_rewrite_amended_witness :
    (∃ n2 : WfNode,
      nodeLookup (run_workflow_with_image_rewrite
        [("10", { class_type := "LoadImage", inputs := [("foo", JVal.str "x.png")] })]
        "new.png") "10" = some n2 ∧
      ("foo", JVal.str "new.png") ∈ n2.inputs) ∧
    (∃ n2 : WfNode,
      nodeLookup (run_workflow_with_image_rewrite
        [("5", { class_type := "LoadImage", inputs := [("foo", JVal.str "x.png")] })]
        "new.png") "5" = some n2 ∧
      ("image", JVal.str "new.png") ∈ n2.inputs ∧
      ("foo", JVal.str "x.png") ∈ n2.inputs) := by
  constructor
  · obtain ⟨h1, _⟩ := C1_image_rewrite_amended
      [("10", { class_type := "LoadImage", inputs := [("foo", JVal.str "x.png")] })]
      "new.png" (by simp)
    obtain ⟨n2, hl, ha, _, _, _⟩ := h1 _ rfl rfl
    exact ⟨n2, hl, ha "foo" "x.png" (List.mem_singleton.mpr rfl) (by decide)⟩
  · obtain ⟨_, h2⟩ := C1_image_rewrite_amended
      [("5", { class_type := "LoadImage", inputs := [("foo", JVal.str "x.png")] })]
      "new.png" (by simp)
    obtain ⟨n2, hl, hi, hp⟩ := h2 []
      [] "5" { class_type := "LoadImage", inputs := [("foo", JVal.str "x.png")] }
      rfl (by decide) (by intro p hp2; simp at hp2) rfl
    refine ⟨n2, hl, hi, ?_⟩
    exact (hp "foo" (JVal.str "x.png") (by decide)).mpr (List.mem_singleton.mpr rfl)

/-- C2: target selection of the image rewrite. If node "10" exists with
class_type "LoadImage" it is the node rewritten and every other node is
untouched; otherwise the first LoadImage node in iteration order is the one
rewritten (getting its `image` key set) and every other node is untouched;
and if no node qualifies the whole deep copy is returned unchanged — the
rewrite is a total function, so the operation cannot fail for that reason. -/
theorem C2_rewrite_target_selection (wf : Workflow) (fname : String)
    (hnd : (wf.map Prod.fst).Nodup) :
    (node10IsLoadImage wf = true →
      (∀ nid, nid ≠ "10" →
        nodeLookup (run_workflow_with_image_rewrite wf fname) nid = nodeLookup wf nid) ∧
      nodeLookup (run_workflow_with_image_rewrite wf fname) "10"
        = (nodeLookup wf "10").map
            (fun n => { n with inputs := rewriteInputsFull fname n.inputs })) ∧
    (node10IsLoadImage wf = false →
      ∀ l1 l2 nid0 n0, wf = l1 ++ (nid0, n0) :: l2 →
        (∀ p ∈ l1, p.2.class_type ≠ "LoadImage") →
        n0.class_type = "LoadImage" →
        (∀ nid, nid ≠ nid0 →
          nodeLookup (run_workflow_with_image_rewrite wf fname) nid = nodeLookup wf nid) ∧
        nodeLookup (run_workflow_with_image_rewrite wf fname) nid0
          = some { n0 with inputs := setImageKey fname n0.inputs }) ∧
    (node10IsLoadImage wf = false →
      (∀ p ∈ wf, p.2.class_type ≠ "LoadImage") →
      run_workflow_with_image_rewrite wf fname = wf) := by
  refine ⟨?_, ?_, ?_⟩
  · intro hb
    have hres : run_workflow_with_image_rewrite wf fname
        = updateNode wf "10" (fun n => { n with inputs := rewriteInputsFull fname n.inputs }) := by
      unfold run_workflow_with_image_rewrite
      rw [hb]
      simp only [if_true]
    constructor
    · intro nid hnid
      rw [hres]
      exact nodeLookup_updateNode_other wf "10" nid _ hnid
    · rw [hres]
      exact nodeLookup_updateNode_self wf "10" _
  · intro h10 l1 l2 nid0 n0 hwf hl1 hn0
    have hfind : wf.find? (fun p => p.2.class_type == "LoadImage") = some (nid0, n0) := by
      rw [hwf]
      exact find?_append_first _ l1 l2 (nid0, n0)
        (fun y hy => by simpa using hl1 y hy) (by simpa using hn0)
    have hres : run_workflow_with_image_rewrite wf fname
        = updateNode wf nid0 (fun n => { n with inputs := setImageKey fname n.inputs }) := by
      unfold run_workflow_with_image_rewrite
      rw [h10]
      simp only [Bool.false_eq_true, if_false, hfind]
    have hkey : nodeLookup wf nid0 = some n0 := nodeLookup_of_decomp wf l1 l2 nid0 n0 hwf hnd
    constructor
    · intro nid hnid
      rw [hres]
      exact nodeLookup_updateNode_other wf nid0 nid _ hnid
    · rw [hres, nodeLookup_updateNode_self, hkey]
      rfl
  · intro h10 hall
    have hfind : wf.find? (fun p => p.2.class_type == "LoadImage") = none := by
      rw [List.find?_eq_none]
      intro p hp
      simpa using hall p hp
    unfold run_workflow_with_image_rewrite
    rw [h10]
    simp only [Bool.false_eq_true, if_false, hfind]

/-- Witness for C2: the three selection cases at concrete two-node
workflows — node "10" preferred over node "5", fallback to node "5" when
node "10" is not a LoadImage, and a workflow without any LoadImage returned
unchanged. -/
theorem C2_rewrite_target_selection_witness :
    (nodeLookup (run_workflow_with_image_rewrite
        [("5", { class_type := "LoadImage", inputs := [("image", JVal.str "old.png")] }),
         ("10", { class_type := "LoadImage", inputs := [("image", JVal.str "old.png")] })]
        "new.png") "5"
      = some { class_type := "LoadImage", inputs := [("image", JVal.str "old.png")] }) ∧
    (nodeLookup (run_workflow_with_image_rewrite
        [("7", { class_type := "KSampler", inputs := [] }),
         ("5", { class_type := "LoadImage", inputs := [("image", JVal.str "old.png")] })]
        "new.png") "5"
      = some { class_type := "LoadImage",
               inputs := setImageKey "new.png" [("image", JVal.str "old.png")] }) ∧
    (run_workflow_with_image_rewrite
        [("7", { class_type := "KSampler", inputs := [("image", JVal.str "old.png")] })]
        "new.png"
      = [("7", { class_type := "KSampler", inputs := [("image", JVal.str "old.png")] })]) := by
  refine ⟨?_, ?_, ?_⟩
  · have h := (C2_rewrite_target_selection
        [("5", { class_type := "LoadImage", inputs := [("image", JVal.str "old.png")] }),
         ("10", { class_type := "LoadImage", inputs := [("image", JVal.str "old.png")] })]
        "new.png" (by simp)).1 (by decide)
    rw [h.1 "5" (by decide)]
    rfl
  · have h := ((C2_rewrite_target_selection
        [("7", { class_type := "KSampler", inputs := [] }),
         ("5", { class_type := "LoadImage", inputs := [("image", JVal.str "old.png")] })]
        "new.png" (by simp)).2.1 (by decide)
        [("7", { class_type := "KSampler", inputs := [] })] [] "5"
        { class_type := "LoadImage", inputs := [("image", JVal.str "old.png")] }
        rfl (by intro p hp; simp at hp; rw [hp]; decide) rfl)
    exact h.2
  · exact (C2_rewrite_target_selection
        [("7", { class_type := "KSampler", inputs := [("image", JVal.str "old.png")] })]
        "new.png" (by simp)).2.2 (by decide)
        (by intro p hp; simp at hp; rw [hp]; decide)

/-- C3: with at least one available backend and any shuffle of the
available sublist, `get_best_server` returns the address of an available
backend whose total load is minimal among the available backends; in
particular it never returns an available backend that is strictly worse
than some other available backend. -/
theorem C3_selector_min_load (regs : Registry) (shuffled : List ComfyUIServerStatus)
    (hperm : shuffled.Perm (regs.filter (fun s => s.is_available)))
    (hnd : (regs.map (fun s => s.server_address)).Nodup)
    (hex : ∃ s ∈ regs, s.is_available = true) :
    (∃ s ∈ regs, s.is_available = true ∧
      get_best_server regs shuffled = some s.server_address ∧
      ∀ t ∈ regs, t.is_available = true → s.total_load ≤ t.total_load) ∧
    (∀ b ∈ regs, b.is_available = true →
      (∃ a ∈ regs, a.is_available = true ∧ a.total_load < b.total_load) →
      get_best_server regs shuffled ≠ some b.server_address) := by
  obtain ⟨s0, hs0m, hs0a⟩ := hex
  have hmemf : s0 ∈ regs.filter (fun s => s.is_available) :=
    List.mem_filter.mpr ⟨hs0m, by simp [hs0a]⟩
  have hfilne : regs.filter (fun s => s.is_available) ≠ [] := List.ne_nil_of_mem hmemf
  have hie : (regs.filter (fun s => s.is_available)).isEmpty = false := by
    cases hc : regs.filter (fun s => s.is_available) with
    | nil => exact absurd hc hfilne
    | cons a l => rfl
  have hgbs : get_best_server regs shuffled
      = ((sortByLoad shuffled).head?).map (fun s => s.server_address) := by
    unfold get_best_server
    simp only [hie, Bool.false_eq_true, if_false]
  have hsortne : sortByLoad shuffled ≠ [] := by
    intro hnil
    have hp2 := (sortByLoad_perm shuffled).trans hperm
    rw [hnil] at hp2
    exact hfilne (hp2.nil_eq).symm
  obtain ⟨h, t, hht⟩ : ∃ h t, sortByLoad shuffled = h :: t := by
    cases hc : sortByLoad shuffled with
    | nil => exact absurd hc hsortne
    | cons a l => exact ⟨a, l, rfl⟩
  have hmain : ∃ s ∈ regs, s.is_available = true ∧
      get_best_server regs shuffled = some s.server_address ∧
      ∀ t2 ∈ regs, t2.is_available = true → s.total_load ≤ t2.total_load := by
    have hhm : h ∈ regs.filter (fun s => s.is_available) := by
      have hhs : h ∈ sortByLoad shuffled := by rw [hht]; exact List.mem_cons_self h t
      exact hperm.subset ((sortByLoad_perm shuffled).subset hhs)
    have hhreg : h ∈ regs := (List.mem_filter.mp hhm).1
    have hhav : h.is_available = true := by
      have := (List.mem_filter.mp hhm).2
      simpa using this
    refine ⟨h, hhreg, hhav, ?_, ?_⟩
    · rw [hgbs, hht]
      rfl
    · intro t2 ht2m ht2a
      have ht2f : t2 ∈ regs.filter (fun s => s.is_available) :=
        List.mem_filter.mpr ⟨ht2m, by simp [ht2a]⟩
      have ht2sh : t2 ∈ shuffled := hperm.symm.subset ht2f
      exact sortByLoad_head_min shuffled h t hht t2 ht2sh
  refine ⟨hmain, ?_⟩
  intro b hbm hba hlt hcontra
  obtain ⟨s, hsm, hsa, hsres, hsmin⟩ := hmain
  obtain ⟨a, ham, haa, haltb⟩ := hlt
  have haddr : s.server_address = b.server_address := by
    rw [hsres] at hcontra
    exact Option.some.inj hcontra
  have hsb : s = b := List.inj_on_of_nodup_map hnd hsm hbm haddr
  have h1 : s.total_load ≤ a.total_load := hsmin a ham haa
  have h2 : a.total_load < s.total_load := hsb ▸ haltb
  exact absurd h1 (not_le.mpr h2)

/-- Witness for C3: registry with A (load 2), B (load 1), C (unavailable),
shuffle [B, A]: the selector picks B, the minimal-load available backend. -/
theorem C3_selector_min_load_witness :
    ∃ s ∈ ([{ server_address := "A", current_tasks := 2 },
            { server_address := "B", current_tasks := 1 },
            { server_address := "C", is_available := false }] : Registry),
      s.is_available = true ∧
      get_best_server
          [{ server_address := "A", current_tasks := 2 },
           { server_address := "B", current_tasks := 1 },
           { server_address := "C", is_available := false }]
          [{ server_address := "B", current_tasks := 1 },
           { server_address := "A", current_tasks := 2 }] = some s.server_address ∧
      ∀ t ∈ ([{ server_address := "A", current_tasks := 2 },
              { server_address := "B", current_tasks := 1 },
              { server_address := "C", is_available := false }] : Registry),
        t.is_available = true → s.total_load ≤ t.total_load :=
  (C3_selector_min_load
    [{ server_address := "A", current_tasks := 2 },
     { server_address := "B", current_tasks := 1 },
     { server_address := "C", is_available := false }]
    [{ server_address := "B", current_tasks := 1 },
     { server_address := "A", current_tasks := 2 }]
    (by decide) (by decide) (by decide)).1

/-- C4: when no backend is available the selector falls back to the first
address of the registry in insertion order; it returns none exactly on the
empty registry, and returns some address whenever any backend exists. -/
theorem C4_selector_fallback (regs : Registry) (shuffled : List ComfyUIServerStatus)
    (hperm : shuffled.Perm (regs.filter (fun s => s.is_available))) :
    ((∀ s ∈ regs, s.is_available = false) →
      get_best_server regs shuffled = (regs.head?).map (fun s => s.server_address)) ∧
    (regs = [] → get_best_server regs shuffled = none) ∧
    (regs ≠ [] → ∃ a, get_best_server regs shuffled = some a) := by
  refine ⟨?_, ?_, ?_⟩
  · intro hall
    have hfil : regs.filter (fun s => s.is_available) = [] := by
      rw [List.filter_eq_nil_iff]
      intro s hs
      simp [hall s hs]
    unfold get_best_server
    simp only [hfil, List.isEmpty_nil, if_true]
  · intro hnil
    subst hnil
    rfl
  · intro hne
    obtain ⟨r0, rest, hr⟩ : ∃ r0 rest, regs = r0 :: rest := by
      cases hc : regs with
      | nil => exact absurd hc hne
      | cons a l => exact ⟨a, l, rfl⟩
    by_cases hie : (regs.filter (fun s => s.is_available)).isEmpty = true
    · refine ⟨r0.server_address, ?_⟩
      unfold get_best_server
      simp only [hie, if_true]
      rw [hr]
      rfl
    · have hfilne : regs.filter (fun s => s.is_available) ≠ [] := by
        intro hc
        rw [hc] at hie
        exact hie rfl
      have hsortne : sortByLoad shuffled ≠ [] := by
        intro hnil2
        have hp2 := (sortByLoad_perm shuffled).trans hperm
        rw [hnil2] at hp2
        exact hfilne (hp2.nil_eq).symm
      obtain ⟨h, t, hht⟩ : ∃ h t, sortByLoad shuffled = h :: t := by
        cases hc : sortByLoad shuffled with
        | nil => exact absurd hc hsortne
        | cons a l => exact ⟨a, l, rfl⟩
      refine ⟨h.server_address, ?_⟩
      unfold get_best_server
      have hie2 : (regs.filter (fun s => s.is_available)).isEmpty = false := by
        cases hc : (regs.filter (fun s => s.is_available)).isEmpty with
        | false => rfl
        | true => exact absurd hc hie
      simp only [hie2, Bool.false_eq_true, if_false, hht]
      rfl

/-- Witness for C4: two unavailable backends A, B — the selector returns A,
the first address in insertion order; and the empty registry yields none. -/
theorem C4_selector_fallback_witness :
    get_best_server
        [{ server_address := "A", is_available := false },
         { server_address := "B", is_available := false }] []
      = some "A" ∧
    get_best_server ([] : Registry) [] = none := by
  constructor
  · have h := (C4_selector_fallback
      [{ server_address := "A", is_available := false },
       { server_address := "B", is_available := false }] [] (by decide)).1 (by decide)
    rw [h]
    rfl
  · exact (C4_selector_fallback ([] : Registry) [] (by decide)).2.1 rfl

/-- C6: after a successful probe of backend b (HTTP 200 with parsed queue
body), b's record holds the lengths of queue_running and queue_pending, is
marked available with zero consecutive errors and the new check time;
after a failed probe the error count rises by one, availability flips to
false exactly when the count reaches the threshold (default 3, see
`settings_max_error_count`) and is untouched below it, and the queue and
in-flight counters are untouched. -/
theorem C6_probe_update (threshold : Nat) (regs : Registry) (b : String)
    (st : ComfyUIServerStatus) (hkey : regLookup regs b = some st) :
    (∀ qr qp now, regLookup (apply_probe threshold b (ProbeOutcome.success qr qp now) regs) b
       = some { st with
                 queue_remaining := qr.length
                 queue_pending := qp.length
                 is_available := true
                 last_check_time := now
                 error_count := 0 }) ∧
    (∃ st2, regLookup (apply_probe threshold b ProbeOutcome.failure regs) b = some st2 ∧
       st2.error_count = st.error_count + 1 ∧
       (threshold ≤ st.error_count + 1 → st2.is_available = false) ∧
       (st.error_count + 1 < threshold → st2.is_available = st.is_available) ∧
       st2.queue_remaining = st.queue_remaining ∧
       st2.queue_pending = st.queue_pending ∧
       st2.current_tasks = st.current_tasks) := by
  constructor
  · intro qr qp now
    unfold apply_probe
    rw [regLookup_map_at regs b _ (update_server_status_addr threshold _), hkey]
    rfl
  · refine ⟨mark_server_error threshold st, ?_, rfl, ?_, ?_, rfl, rfl, rfl⟩
    · unfold apply_probe
      rw [regLookup_map_at regs b _ (update_server_status_addr threshold _), hkey]
      rfl
    · intro hth
      unfold mark_server_error
      simp only [if_pos hth]
    · intro hth
      unfold mark_server_error
      simp only [if_neg (not_le.mpr hth)]

/-- Witness for C6: backend A with two prior errors, threshold 3. A
successful probe with two running and one pending job resets the record;
a failed probe reaches the threshold and flips availability off. -/
theorem C6_probe_update_witness :
    (regLookup (apply_probe 3 "A" (ProbeOutcome.success [(), ()] [()] 42)
        [{ server_address := "A", error_count := 2 }]) "A"
      = some { server_address := "A", queue_remaining := 2, queue_pending := 1,
               is_available := true, last_check_time := 42, error_count := 0 }) ∧
    (∃ st2, regLookup (apply_probe 3 "A" ProbeOutcome.failure
        [{ server_address := "A", error_count := 2 }]) "A" = some st2 ∧
      st2.error_count = 3 ∧ st2.is_available = false) := by
  have h := C6_probe_update 3 [{ server_address := "A", error_count := 2 }] "A"
    { server_address := "A", error_count := 2 } (by decide)
  constructor
  · exact h.1 [(), ()] [()] 42
  · obtain ⟨st2, hl, hec, hth, _, _, _, _⟩ := h.2
    exact ⟨st2, hl, hec, hth (by decide)⟩

/-- C7: under any sequence of registry operations (add, remove, probe,
increment, decrement) starting from a registry of non-negative in-flight
counters, every counter stays non-negative; and a decrement on a backend
whose counter is already zero leaves its record (and the counter at zero)
unchanged. -/
theorem C7_in_flight_nonneg (threshold : Nat) (regs : Registry) (ops : List RegistryOp)
    (hinit : ∀ s ∈ regs, 0 ≤ s.current_tasks) :
    (∀ s ∈ applyOps threshold regs ops, 0 ≤ s.current_tasks) ∧
    (∀ b st, regLookup regs b = some st → st.current_tasks = 0 →
      regLookup (decrement_task regs b) b = some st) := by
  constructor
  · exact applyOps_preserves_nonneg threshold ops regs hinit
  · intro b st hkey hzero
    have hhas : regHas regs b = true := regHas_of_regLookup regs b st hkey
    unfold decrement_task
    rw [if_pos hhas,
        regLookup_map_at regs b
          (fun s => { s with current_tasks := max 0 (s.current_tasks - 1) })
          (fun s => rfl),
        hkey]
    have hmax : max 0 (st.current_tasks - 1) = st.current_tasks := by omega
    show some { st with current_tasks := max 0 (st.current_tasks - 1) } = some st
    rw [hmax]

/-- Witness for C7: a three-operation run (increment A, decrement A twice)
from a fresh single-backend registry keeps the counter non-negative, and a
decrement at zero returns the record unchanged. -/
theorem C7_in_flight_nonneg_witness :
    (∀ s ∈ applyOps 3 [{ server_address := "A" }]
        [RegistryOp.inc "A", RegistryOp.dec "A", RegistryOp.dec "A"],
      0 ≤ s.current_tasks) ∧
    regLookup (decrement_task [{ server_address := "A" }] "A") "A"
      = some { server_address := "A" } := by
  have h := C7_in_flight_nonneg 3 [{ server_address := "A" }]
    [RegistryOp.inc "A", RegistryOp.dec "A", RegistryOp.dec "A"] (by decide)
  exact ⟨h.1, h.2 "A" { server_address := "A" } (by decide) rfl⟩

/-- C10: increment_task and decrement_task with an address absent from the
registry leave the registry unchanged and raise nothing; in particular
after remove_server(addr) the address is absent, so a request completing
against the removed backend decrements nothing. -/
theorem C10_absent_address_noop (regs : Registry) (addr : String) :
    (regHas regs addr = false →
      increment_task regs addr = regs ∧ decrement_task regs addr = regs) ∧
    regHas (remove_server regs addr) addr = false ∧
    decrement_task (remove_server regs addr) addr = remove_server regs addr ∧
    increment_task (remove_server regs addr) addr = remove_server regs addr := by
  have hrem : regHas (remove_server regs addr) addr = false := by
    rw [Bool.eq_false_iff]
    intro htrue
    obtain ⟨s, hm, hb⟩ := List.any_eq_true.mp htrue
    have hf := (List.mem_filter.mp hm).2
    rw [hb] at hf
    exact absurd hf (by decide)
  refine ⟨?_, hrem, ?_, ?_⟩
  · intro h
    constructor
    · unfold increment_task
      rw [if_neg (by rw [h]; exact Bool.false_ne_true)]
    · unfold decrement_task
      rw [if_neg (by rw [h]; exact Bool.false_ne_true)]
  · unfold decrement_task
    rw [if_neg (by rw [hrem]; exact Bool.false_ne_true)]
  · unfold increment_task
    rw [if_neg (by rw [hrem]; exact Bool.false_ne_true)]

/-- Witness for C10: incrementing and decrementing address "B" on a
registry holding only "A" changes nothing. -/
theorem C10_absent_address_noop_witness :
    increment_task [{ server_address := "A" }] "B" = [{ server_address := "A" }] ∧
    decrement_task [{ server_address := "A" }] "B" = [{ server_address := "A" }] :=
  (C10_absent_address_noop [{ server_address := "A" }] "B").1 (by decide)

/-- C5: whenever a request is dispatched to backend b (its event trace
contains `inc b`), the trace is exactly one increment followed by one
decrement of b — on every exit path of the handler body (success with or
without artifact, missing workflow, workflow-run raise, post-processing
raise); and a request never decrements a backend it did not increment.
Holds for the image handler and the video handler alike. -/
theorem C5_dispatch_bracketing (bestServer : Option String)
    (envI : ImageBodyEnv) (envV : VideoBodyEnv) (b : String) :
    (AcctEvent.inc b ∈ (process_image_dispatch bestServer envI).2 →
      (process_image_dispatch bestServer envI).2 = [AcctEvent.inc b, AcctEvent.dec b]) ∧
    (AcctEvent.inc b ∉ (process_image_dispatch bestServer envI).2 →
      AcctEvent.dec b ∉ (process_image_dispatch bestServer envI).2) ∧
    (AcctEvent.inc b ∈ (process_video_dispatch bestServer envV).2 →
      (process_video_dispatch bestServer envV).2 = [AcctEvent.inc b, AcctEvent.dec b]) ∧
    (AcctEvent.inc b ∉ (process_video_dispatch bestServer envV).2 →
      AcctEvent.dec b ∉ (process_video_dispatch bestServer envV).2) := by
  have himg : ∀ addr, (process_image_dispatch (some addr) envI).2
      = [AcctEvent.inc addr, AcctEvent.dec addr] := by
    intro addr
    unfold process_image_dispatch
    cases imageRequestBody envI <;> rfl
  have hvid : ∀ addr, (process_video_dispatch (some addr) envV).2
      = [AcctEvent.inc addr, AcctEvent.dec addr]
      ∨ (process_video_dispatch (some addr) envV).2 = [] := by
    intro addr
    unfold process_video_dispatch
    by_cases hf : envV.filenameSupported = false
    · rw [if_pos hf]
      exact Or.inr rfl
    · rw [if_neg hf]
      cases videoRequestBody envV <;> exact Or.inl rfl
  cases bestServer with
  | none =>
      refine ⟨?_, ?_, ?_, ?_⟩
      · intro h
        simp [process_image_dispatch] at h
      · intro _
        simp [process_image_dispatch]
      · intro h
        unfold process_video_dispatch at h
        by_cases hf : envV.filenameSupported = false
        · rw [if_pos hf] at h
          simp at h
        · rw [if_neg hf] at h
          simp at h
      · intro _
        unfold process_video_dispatch
        by_cases hf : envV.filenameSupported = false
        · rw [if_pos hf]
          simp
        · rw [if_neg hf]
          simp
  | some addr =>
      refine ⟨?_, ?_, ?_, ?_⟩
      · intro h
        rw [himg addr] at h ⊢
        have hb : b = addr := by
          rcases List.mem_cons.mp h with h1 | h1
          · exact (AcctEvent.inc.injEq b addr).mp h1
          · simp at h1
        rw [hb]
      · intro h
        rw [himg addr] at h ⊢
        have hb : b ≠ addr := by
          intro hcon
          exact h (by rw [hcon]; exact List.mem_cons_self _ _)
        simp [hb]
      · intro h
        rcases hvid addr with hv | hv
        · rw [hv] at h ⊢
          have hb : b = addr := by
            rcases List.mem_cons.mp h with h1 | h1
            · exact (AcctEvent.inc.injEq b addr).mp h1
            · simp at h1
          rw [hb]
        · rw [hv] at h
          simp at h
      · intro h
        rcases hvid addr with hv | hv
        · rw [hv] at h ⊢
          have hb : b ≠ addr := by
            intro hcon
            exact h (by rw [hcon]; exact List.mem_cons_self _ _)
          simp [hb]
        · rw [hv]
          simp

/-- Witness for C5: dispatch to "A" produces exactly [inc A, dec A] on a
successful image run, on a failing image run, and on a successful video
run. -/
theorem C5_dispatch_bracketing_witness :
    (process_image_dispatch (some "A")
        { workflowLoaded := true, runResult := Except.ok (),
          artifactFound := true, postProcess := Except.ok () }).2
      = [AcctEvent.inc "A", AcctEvent.dec "A"] ∧
    (process_image_dispatch (some "A")
        { workflowLoaded := true, runResult := Except.error "timeout",
          artifactFound := false, postProcess := Except.ok () }).2
      = [AcctEvent.inc "A", AcctEvent.dec "A"] ∧
    (process_video_dispatch (some "A")
        { filenameSupported := true, workflowLoaded := true, runResult := Except.ok (),
          artifactFound := true, postProcess := Except.ok () }).2
      = [AcctEvent.inc "A", AcctEvent.dec "A"] := by
  refine ⟨?_, ?_, ?_⟩
  · exact (C5_dispatch_bracketing (some "A")
      { workflowLoaded := true, runResult := Except.ok (),
        artifactFound := true, postProcess := Except.ok () }
      { filenameSupported := true, workflowLoaded := true, runResult := Except.ok (),
        artifactFound := true, postProcess := Except.ok () } "A").1 (by decide)
  · exact (C5_dispatch_bracketing (some "A")
      { workflowLoaded := true, runResult := Except.error "timeout",
        artifactFound := false, postProcess := Except.ok () }
      { filenameSupported := true, workflowLoaded := true, runResult := Except.ok (),
        artifactFound := true, postProcess := Except.ok () } "A").1 (by decide)
  · exact (C5_dispatch_bracketing (some "A")
      { workflowLoaded := true, runResult := Except.ok (),
        artifactFound := true, postProcess := Except.ok () }
      { filenameSupported := true, workflowLoaded := true, runResult := Except.ok (),
        artifactFound := true, postProcess := Except.ok () } "A").2.2.1 (by decide)

/-- C8: the watch loop returns true exactly when some frame delivered
before the deadline is a text frame of type `executing` with `node == null`
and a `prompt_id` equal to the awaited job id; `progress` frames never
cause a return, an exhausted deadline yields false, and the WebSocket is
closed on every exit. -/
theorem C8_wait_for_prompt_exec (prompt_id : String) (frames : List WsFrame) :
    (wait_for_prompt_exec_run prompt_id frames).wsClosed = true ∧
    ((wait_for_prompt_exec_run prompt_id frames).value = true ↔
      ∃ f ∈ frames, isCompletionSignal prompt_id f = true) := by
  refine ⟨rfl, ?_⟩
  show wait_for_prompt_exec prompt_id frames = true ↔ _
  rw [wait_eq_any]
  exact List.any_eq_true

/-- Witness for C8: a progress frame followed by the completion signal for
job "p1" yields true; a lone progress frame (deadline case) yields false. -/
theorem C8_wait_for_prompt_exec_witness :
    ((wait_for_prompt_exec_run "p1"
        [WsFrame.text { mtype := some "progress", dataNode := none, dataPromptId := none,
                        dataValue := some 1, dataMax := some 2 },
         WsFrame.text { mtype := some "executing", dataNode := none,
                        dataPromptId := some "p1", dataValue := none, dataMax := none }]).value
      = true) ∧
    ((wait_for_prompt_exec_run "p1"
        [WsFrame.text { mtype := some "progress", dataNode := none, dataPromptId := none,
                        dataValue := some 1, dataMax := some 2 }]).value = false) := by
  constructor
  · exact (C8_wait_for_prompt_exec "p1"
      [WsFrame.text { mtype := some "progress", dataNode := none, dataPromptId := none,
                      dataValue := some 1, dataMax := some 2 },
       WsFrame.text { mtype := some "executing", dataNode := none,
                      dataPromptId := some "p1", dataValue := none, dataMax := none }]).2.mpr
      ⟨WsFrame.text { mtype := some "executing", dataNode := none,
                      dataPromptId := some "p1", dataValue := none, dataMax := none },
       by decide, by decide⟩
  · have h := (C8_wait_for_prompt_exec "p1"
      [WsFrame.text { mtype := some "progress", dataNode := none, dataPromptId := none,
                      dataValue := some 1, dataMax := some 2 }]).2
    cases hv : (wait_for_prompt_exec_run "p1"
        [WsFrame.text { mtype := some "progress", dataNode := none, dataPromptId := none,
                        dataValue := some 1, dataMax := some 2 }]).value with
    | false => rfl
    | true =>
        obtain ⟨f, hm, hc⟩ := h.mp hv
        rw [List.mem_singleton.mp hm] at hc
        exact absurd hc (by decide)

/-- C9: in image mode (template present, workflow non-empty) load_template
preloads on every tool-pool backend and returns HTTP 500 exactly when zero
backends succeed; with at least one success it returns the per-backend
results; in video mode no preload is invoked at all. -/
theorem C9_load_template (mode : String) (tex wempty : Bool) (tools : List String)
    (outcome : String → Bool × String) :
    (mode = "image" → tex = true → wempty = false →
      ((load_template mode tex wempty tools outcome).1 = LoadTemplateOutcome.httpError 500 ↔
        ∀ a ∈ tools, (outcome a).1 = false) ∧
      ((∃ a ∈ tools, (outcome a).1 = true) →
        (load_template mode tex wempty tools outcome).1
          = LoadTemplateOutcome.success (preload_all_servers tools outcome)) ∧
      (load_template mode tex wempty tools outcome).2 = tools) ∧
    (mode = "video" → tex = true → wempty = false →
      (load_template mode tex wempty tools outcome).1 = LoadTemplateOutcome.success [] ∧
      (load_template mode tex wempty tools outcome).2 = []) := by
  constructor
  · intro hm ht hw
    subst hm
    subst ht
    subst hw
    have hunfold : load_template "image" true false tools outcome
        = (if ((preload_all_servers tools outcome).filter (fun r => r.2.1 == true)).length == 0
           then (LoadTemplateOutcome.httpError 500, tools)
           else (LoadTemplateOutcome.success (preload_all_servers tools outcome), tools)) := by
      rfl
    by_cases hall : ∀ a ∈ tools, (outcome a).1 = false
    · have hfil : (preload_all_servers tools outcome).filter (fun r => r.2.1 == true) = [] := by
        rw [List.filter_eq_nil_iff]
        intro r hr
        obtain ⟨a, ham, hae⟩ := List.mem_map.mp hr
        rw [← hae]
        simp [hall a ham]
      rw [hunfold, hfil]
      refine ⟨⟨fun _ => hall, fun _ => rfl⟩, ?_, ?_⟩
      · intro hex
        obtain ⟨a, ham, hat⟩ := hex
        rw [hall a ham] at hat
        exact absurd hat (by decide)
      · rfl
    · have hex : ∃ a ∈ tools, (outcome a).1 = true := by
        push_neg at hall
        obtain ⟨a, ham, hat⟩ := hall
        refine ⟨a, ham, ?_⟩
        cases hc : (outcome a).1 with
        | false => exact absurd hc hat
        | true => rfl
      obtain ⟨a, ham, hat⟩ := hex
      have hmem : (a, outcome a) ∈
          (preload_all_servers tools outcome).filter (fun r => r.2.1 == true) := by
        refine List.mem_filter.mpr ⟨List.mem_map_of_mem _ ham, by simp [hat]⟩
      have hfne : ((preload_all_servers tools outcome).filter (fun r => r.2.1 == true)).length ≠ 0 := by
        intro hzero
        rw [List.length_eq_zero] at hzero
        rw [hzero] at hmem
        simp at hmem
      have hbne : (((preload_all_servers tools outcome).filter
          (fun r => r.2.1 == true)).length == 0) = false := by
        simpa using hfne
      rw [hunfold, hbne]
      simp only [Bool.false_eq_true, if_false]
      refine ⟨⟨?_, ?_⟩, ?_, ?_⟩
      · intro hcon
        exact absurd hcon (by simp)
      · intro hall2
        rw [hall2 a ham] at hat
        exact absurd hat (by decide)
      · intro _
        trivial
      · trivial
  · intro hm ht hw
    subst hm
    subst ht
    subst hw
    exact ⟨rfl, rfl⟩

/-- Witness for C9: two backends where only "A" preloads successfully —
image mode returns the per-backend results and preloads both; video mode
preloads nothing. -/
theorem C9_load_template_witness :
    ((load_template "image" true false ["A", "B"] (fun a => (a == "A", "r"))).1
      = LoadTemplateOutcome.success [("A", (true, "r")), ("B", (false, "r"))]) ∧
    ((load_template "image" true false ["A", "B"] (fun a => (a == "A", "r"))).2
      = ["A", "B"]) ∧
    ((load_template "video" true false ["A", "B"] (fun a => (a == "A", "r"))).2 = []) := by
  have h := C9_load_template "image" true false ["A", "B"] (fun a => (a == "A", "r"))
  have h1 := (h.1 rfl rfl rfl).2.1 ⟨"A", by decide, by decide⟩
  have h2 := (h.1 rfl rfl rfl).2.2
  have h3 := (C9_load_template "video" true false ["A", "B"]
    (fun a => (a == "A", "r"))).2 rfl rfl rfl
  exact ⟨h1, h2, h3.2⟩

end FaceChange
